import Mathlib

/-!
# Token persistence policy of `frontend/src/api.js`

A shallow embedding of the token management functions of `api.js`
(`getStoredToken`, `saveToken`, `clearToken`, `initAuthFromStorage`), of the
start-up call at module load and of the `audioUrl` helper, followed by the
properties proved about them.

The two browser storage areas (`sessionStorage`, `localStorage`) and the
object `api.defaults.headers.common` are string-keyed dictionaries with
string values.  They are embedded as association lists with the three
operations the source uses on them: lookup, assignment and removal of a key.
-/

namespace Wordlist

/-! ## String-keyed dictionaries -/

/-- Dictionary from string keys to string values, in insertion order. -/
abbrev Dict := List (String × String)

/-- Lookup of a key; `none` stands for the JavaScript `null` / `undefined`
that a lookup of a missing key gives. -/
def Dict.get : Dict → String → Option String
  | [], _ => none
  | (k', v) :: rest, k => if k' = k then some v else Dict.get rest k

/-- Assignment to a key: an entry that exists is overwritten in place, a new
entry is added at the end. -/
def Dict.set : Dict → String → String → Dict
  | [], k, v => [(k, v)]
  | (k', v') :: rest, k, v =>
    if k' = k then (k, v) :: rest else (k', v') :: Dict.set rest k v

/-- Removal of a key; every other entry stays where it is. -/
def Dict.erase : Dict → String → Dict
  | [], _ => []
  | (k', v') :: rest, k =>
    if k' = k then Dict.erase rest k else (k', v') :: Dict.erase rest k

/-- Web Storage area (`sessionStorage` or `localStorage`). -/
abbrev Storage := Dict

/-- Method `Storage.getItem(key)`: the value, or `null` when the key is absent. -/
abbrev Storage.getItem (st : Storage) (key : String) : Option String :=
  Dict.get st key

/-- Method `Storage.setItem(key, value)`. -/
abbrev Storage.setItem (st : Storage) (key value : String) : Storage :=
  Dict.set st key value

/-- Method `Storage.removeItem(key)`. -/
abbrev Storage.removeItem (st : Storage) (key : String) : Storage :=
  Dict.erase st key

/-! ## JavaScript value operations used by the source -/

/-- Truthiness of a value that is a string or `null`: `null` and the empty
string are falsy, every other string is truthy. -/
def truthy : Option String → Bool
  | none => false
  | some s => decide (s ≠ "")

/-- Operator `a || b` on two values that are each a string or `null`. -/
def jsOr (a b : Option String) : Option String :=
  if truthy a then a else b

/-- Operator `a || b` where `b` is a string: the result is a string. -/
def jsOrStr (a : Option String) (b : String) : String :=
  match a with
  | some s => if truthy (some s) then s else b
  | none => b

/-! ## Program state -/

/-- Observable state the token functions act on: the two storage areas and
the default header object `api.defaults.headers.common`. -/
structure World where
  sessionStorage : Storage
  localStorage : Storage
  headers : Dict
  deriving DecidableEq, Repr

/-- Value of `api.defaults.headers.common['Authorization']`, `none` when the
property is absent. -/
def World.authorization (w : World) : Option String :=
  Dict.get w.headers "Authorization"

/-! ## The functions of `api.js` -/

/-- Function `getStoredToken` (api.js lines 9-11):
`sessionStorage.getItem('token') || localStorage.getItem('token') || ''`.
Returns the value together with the state after the call. -/
def getStoredToken (w : World) : String × World :=
  (jsOrStr (jsOr (w.sessionStorage.getItem "token") (w.localStorage.getItem "token")) "", w)

/-- Function `clearToken` (api.js lines 24-28). -/
def clearToken (w : World) : World :=
  let w1 : World := { w with headers := Dict.erase w.headers "Authorization" }
  let w2 : World := { w1 with sessionStorage := w1.sessionStorage.removeItem "token" }
  { w2 with localStorage := w2.localStorage.removeItem "token" }

/-- Function `saveToken` (api.js lines 13-22); `token` is a string, so
`!token` holds exactly for the empty string. -/
def saveToken (token : String) (remember : Bool) (w : World) : World :=
  let w1 := clearToken w
  if !(truthy (some token)) then w1
  else
    let w2 : World :=
      if remember then
        { w1 with localStorage := w1.localStorage.setItem "token" token }
      else
        { w1 with sessionStorage := w1.sessionStorage.setItem "token" token }
    { w2 with headers := Dict.set w2.headers "Authorization" ("Bearer " ++ token) }

/-- Function `initAuthFromStorage` (api.js lines 30-33). -/
def initAuthFromStorage (w : World) : World :=
  let (t, w1) := getStoredToken w
  if truthy (some t) then
    { w1 with headers := Dict.set w1.headers "Authorization" ("Bearer " ++ t) }
  else w1

/-- Module load (api.js lines 6 and 36): the client is created with the
default headers `hdrs` of the HTTP library, then `initAuthFromStorage()` runs
on the storage contents found at that moment. -/
def processStart (ss ls : Storage) (hdrs : Dict) : World :=
  initAuthFromStorage { sessionStorage := ss, localStorage := ls, headers := hdrs }

/-- Helper `audioUrl` (api.js line 78), the template
`${API_BASE}/audio/${audio_id}`; the configured base URL `API_BASE`
(api.js line 5) is a parameter. -/
def audioUrl (API_BASE : String) (audio_id : String) : String :=
  API_BASE ++ "/audio/" ++ audio_id

/-! ## Sequences of calls -/

/-- One call of a token function. -/
inductive Op where
  | saveToken (token : String) (remember : Bool)
  | clearToken
  | getStoredToken
  | initAuthFromStorage
  deriving DecidableEq, Repr

/-- State after one call. -/
def step (w : World) : Op → World
  | Op.saveToken t r => saveToken t r w
  | Op.clearToken => clearToken w
  | Op.getStoredToken => (getStoredToken w).2
  | Op.initAuthFromStorage => initAuthFromStorage w

/-- State after a sequence of calls, made from left to right. -/
def run (w : World) (ops : List Op) : World :=
  ops.foldl step w

/-- Whether the call is a `saveToken`. -/
def Op.isSave : Op → Bool
  | Op.saveToken _ _ => true
  | _ => false

/-! ## Predicates of the specification -/

/-- Header/storage consistency: the Authorization default header is
`"Bearer " + getStoredToken()` when the stored token is non-empty and is
absent when the stored token is the empty string. -/
def Consistent (w : World) : Prop :=
  if (getStoredToken w).1 ≠ "" then
    w.authorization = some ("Bearer " ++ (getStoredToken w).1)
  else w.authorization = none

/-- Single-scope predicate: at most one of the two storage areas holds a
non-empty value under key `"token"`. -/
def AtMostOneScope (w : World) : Prop :=
  ¬ (truthy (w.sessionStorage.getItem "token") = true ∧
     truthy (w.localStorage.getItem "token") = true)

/-- Reference definition of the stored token, following the wording of the
specification: the non-empty ephemeral value if there is one, otherwise the
non-empty durable value if there is one, otherwise the empty string. -/
def storedTokenSpec (w : World) : String :=
  match w.sessionStorage.getItem "token" with
  | some e =>
    if e ≠ "" then e
    else
      match w.localStorage.getItem "token" with
      | some d => if d ≠ "" then d else ""
      | none => ""
  | none =>
    match w.localStorage.getItem "token" with
    | some d => if d ≠ "" then d else ""
    | none => ""

/-- Token transport as the specification words it, for the run that starts at
module load with storage contents `ss`, `ls` and library headers `hdrs` and
then makes the calls `ops`: the state reached carries `Bearer t` when the
last call was a `saveToken` of a non-empty `t`, carries no Authorization
header when no `saveToken` has been called yet, and carries none when the
last call was a `clearToken`.  The first and the last part are read in their
weakest form (the point directly after the call). -/
def TransportClaim (ss ls : Storage) (hdrs : Dict) (ops : List Op) : Prop :=
  (∀ pre t r, ops = pre ++ [Op.saveToken t r] → t ≠ "" →
      (run (processStart ss ls hdrs) ops).authorization = some ("Bearer " ++ t)) ∧
  ((∀ op ∈ ops, Op.isSave op = false) →
      (run (processStart ss ls hdrs) ops).authorization = none) ∧
  (∀ pre, ops = pre ++ [Op.clearToken] →
      (run (processStart ss ls hdrs) ops).authorization = none)

/-- State with no Authorization header and an empty stored token. -/
def NoToken (w : World) : Prop :=
  w.authorization = none ∧ (getStoredToken w).1 = ""

/-- State whose Authorization header and stored token both carry `tok`. -/
def HasToken (tok : String) (w : World) : Prop :=
  w.authorization = some ("Bearer " ++ tok) ∧ (getStoredToken w).1 = tok

instance (w : World) : Decidable (Consistent w) := by
  unfold Consistent; exact inferInstance

instance (w : World) : Decidable (AtMostOneScope w) := by
  unfold AtMostOneScope; exact inferInstance

/-! ## Dictionary lemmas -/

theorem Dict.get_set_same (d : Dict) (k v : String) :
    Dict.get (Dict.set d k v) k = some v := by
  induction d with
  | nil => simp [Dict.set, Dict.get]
  | cons hd tl ih =>
    obtain ⟨k', v'⟩ := hd
    by_cases h : k' = k <;> simp [Dict.set, Dict.get, h, ih]

theorem Dict.get_set_other (d : Dict) (k v j : String) (hj : j ≠ k) :
    Dict.get (Dict.set d k v) j = Dict.get d j := by
  induction d with
  | nil => simp [Dict.set, Dict.get, Ne.symm hj]
  | cons hd tl ih =>
    obtain ⟨k', v'⟩ := hd
    by_cases h : k' = k
    · subst h
      simp [Dict.set, Dict.get, Ne.symm hj]
    · by_cases h2 : k' = j
      · subst h2
        simp [Dict.set, Dict.get, h]
      · simp [Dict.set, Dict.get, h, h2, ih]

theorem Dict.get_erase_same (d : Dict) (k : String) :
    Dict.get (Dict.erase d k) k = none := by
  induction d with
  | nil => simp [Dict.erase, Dict.get]
  | cons hd tl ih =>
    obtain ⟨k', v'⟩ := hd
    by_cases h : k' = k <;> simp [Dict.erase, Dict.get, h, ih]

theorem Dict.get_erase_other (d : Dict) (k j : String) (hj : j ≠ k) :
    Dict.get (Dict.erase d k) j = Dict.get d j := by
  induction d with
  | nil => simp [Dict.erase, Dict.get]
  | cons hd tl ih =>
    obtain ⟨k', v'⟩ := hd
    by_cases h : k' = k
    · subst h
      simp [Dict.erase, Dict.get, Ne.symm hj, ih]
    · by_cases h2 : k' = j
      · subst h2
        simp [Dict.erase, Dict.get, h]
      · simp [Dict.erase, Dict.get, h, h2, ih]

theorem Dict.erase_eq_self_iff (d : Dict) (k : String) :
    Dict.erase d k = d ↔ Dict.get d k = none := by
  induction d with
  | nil => simp [Dict.erase, Dict.get]
  | cons hd tl ih =>
    obtain ⟨k', v'⟩ := hd
    by_cases h : k' = k
    · subst h
      simp only [Dict.erase, Dict.get, if_true]
      constructor
      · intro he
        have hlen : (Dict.erase tl k').length ≤ tl.length := by
          clear ih he
          induction tl with
          | nil => simp [Dict.erase]
          | cons hd2 tl2 ih2 =>
            obtain ⟨a, b⟩ := hd2
            by_cases ha : a = k' <;> simp [Dict.erase, ha] <;> omega
        rw [he] at hlen
        simp at hlen
      · intro he
        cases he
    · simp [Dict.erase, Dict.get, h, ih]

theorem Dict.erase_erase (d : Dict) (k : String) :
    Dict.erase (Dict.erase d k) k = Dict.erase d k :=
  (Dict.erase_eq_self_iff _ _).2 (Dict.get_erase_same d k)

/-! ## Facts about the single functions -/

theorem truthy_some (s : String) : truthy (some s) = true ↔ s ≠ "" := by
  simp [truthy]

theorem getStoredToken_snd (w : World) : (getStoredToken w).2 = w := rfl

theorem getStoredToken_fst_eq_spec (w : World) :
    (getStoredToken w).1 = storedTokenSpec w := by
  unfold getStoredToken storedTokenSpec jsOrStr jsOr
  cases hs : w.sessionStorage.getItem "token" with
  | none =>
    cases hl : w.localStorage.getItem "token" with
    | none => simp [truthy]
    | some d => by_cases hd : d = "" <;> simp [truthy, hd]
  | some e =>
    by_cases he : e = ""
    · cases hl : w.localStorage.getItem "token" with
      | none => simp [truthy, he]
      | some d => by_cases hd : d = "" <;> simp [truthy, hd, he]
    · simp [truthy, he]

/-- The stored token is empty exactly when neither scope holds a non-empty
value. -/
theorem getStoredToken_eq_empty_iff (w : World) :
    (getStoredToken w).1 = "" ↔
      truthy (w.sessionStorage.getItem "token") = false ∧
      truthy (w.localStorage.getItem "token") = false := by
  rw [getStoredToken_fst_eq_spec]
  unfold storedTokenSpec
  cases hs : w.sessionStorage.getItem "token" with
  | none =>
    cases hl : w.localStorage.getItem "token" with
    | none => simp [truthy]
    | some d => by_cases hd : d = "" <;> simp [truthy, hd]
  | some e =>
    by_cases he : e = ""
    · cases hl : w.localStorage.getItem "token" with
      | none => simp [truthy, he]
      | some d => by_cases hd : d = "" <;> simp [truthy, hd, he]
    · simp [truthy, he]

theorem clearToken_session (w : World) :
    (clearToken w).sessionStorage = Dict.erase w.sessionStorage "token" := rfl

theorem clearToken_local (w : World) :
    (clearToken w).localStorage = Dict.erase w.localStorage "token" := rfl

theorem clearToken_headers (w : World) :
    (clearToken w).headers = Dict.erase w.headers "Authorization" := rfl

theorem clearToken_authorization (w : World) : (clearToken w).authorization = none := by
  simp [World.authorization, clearToken_headers, Dict.get_erase_same]

theorem clearToken_stored (w : World) : (getStoredToken (clearToken w)).1 = "" := by
  rw [getStoredToken_eq_empty_iff]
  simp [Storage.getItem, clearToken_session, clearToken_local, Dict.get_erase_same, truthy]

theorem saveToken_empty (remember : Bool) (w : World) :
    saveToken "" remember w = clearToken w := by
  simp [saveToken, truthy]

theorem saveToken_session (t : String) (ht : t ≠ "") (w : World) :
    (saveToken t false w).sessionStorage.getItem "token" = some t ∧
    (saveToken t false w).localStorage.getItem "token" = none := by
  simp [saveToken, truthy, ht, Storage.getItem, Storage.setItem, Dict.get_set_same,
    clearToken_local, Dict.get_erase_same]

theorem saveToken_local (t : String) (ht : t ≠ "") (w : World) :
    (saveToken t true w).localStorage.getItem "token" = some t ∧
    (saveToken t true w).sessionStorage.getItem "token" = none := by
  simp [saveToken, truthy, ht, Storage.getItem, Storage.setItem, Dict.get_set_same,
    clearToken_session, Dict.get_erase_same]

theorem saveToken_authorization (t : String) (ht : t ≠ "") (remember : Bool) (w : World) :
    (saveToken t remember w).authorization = some ("Bearer " ++ t) := by
  cases remember <;>
    simp [saveToken, truthy, ht, World.authorization, Dict.get_set_same]

theorem saveToken_stored (t : String) (ht : t ≠ "") (remember : Bool) (w : World) :
    (getStoredToken (saveToken t remember w)).1 = t := by
  cases remember
  · obtain ⟨h1, h2⟩ := saveToken_session t ht w
    simp [getStoredToken, h1, h2, jsOr, jsOrStr, truthy, ht]
  · obtain ⟨h1, h2⟩ := saveToken_local t ht w
    simp [getStoredToken, h1, h2, jsOr, jsOrStr, truthy, ht]

theorem initAuth_session (w : World) :
    (initAuthFromStorage w).sessionStorage = w.sessionStorage := by
  unfold initAuthFromStorage getStoredToken
  dsimp only
  split <;> rfl

theorem initAuth_local (w : World) :
    (initAuthFromStorage w).localStorage = w.localStorage := by
  unfold initAuthFromStorage getStoredToken
  dsimp only
  split <;> rfl

theorem initAuth_stored (w : World) :
    (getStoredToken (initAuthFromStorage w)).1 = (getStoredToken w).1 := by
  simp [getStoredToken, initAuth_session, initAuth_local]

theorem initAuth_authorization_of_ne (w : World) (h : (getStoredToken w).1 ≠ "") :
    (initAuthFromStorage w).authorization = some ("Bearer " ++ (getStoredToken w).1) := by
  have ht : truthy (some (getStoredToken w).1) = true := (truthy_some _).2 h
  simp [initAuthFromStorage, ht, World.authorization, Dict.get_set_same]

theorem initAuth_of_empty (w : World) (h : (getStoredToken w).1 = "") :
    initAuthFromStorage w = w := by
  have ht : truthy (some (getStoredToken w).1) = false := by simp [truthy, h]
  simp [initAuthFromStorage, ht, getStoredToken_snd]

theorem clearToken_eq_self_iff (w : World) :
    clearToken w = w ↔
      w.sessionStorage.getItem "token" = none ∧
      w.localStorage.getItem "token" = none ∧
      w.authorization = none := by
  obtain ⟨ss, ls, hd⟩ := w
  simp only [clearToken, Storage.removeItem, Storage.getItem, World.authorization,
    World.mk.injEq, Dict.erase_eq_self_iff]

theorem consistent_clearToken (w : World) : Consistent (clearToken w) := by
  simp [Consistent, clearToken_stored, clearToken_authorization]

theorem consistent_saveToken (t : String) (remember : Bool) (w : World) :
    Consistent (saveToken t remember w) := by
  by_cases ht : t = ""
  · subst ht
    rw [saveToken_empty]
    exact consistent_clearToken w
  · simp [Consistent, saveToken_stored t ht, saveToken_authorization t ht, ht]

theorem consistent_initAuth (w : World) (h : Consistent w) :
    Consistent (initAuthFromStorage w) := by
  by_cases he : (getStoredToken w).1 = ""
  · rw [initAuth_of_empty w he]
    exact h
  · simp [Consistent, initAuth_stored, he, initAuth_authorization_of_ne w he]

theorem consistent_step (w : World) (op : Op) (h : Consistent w) :
    Consistent (step w op) := by
  cases op with
  | saveToken t r => exact consistent_saveToken t r w
  | clearToken => exact consistent_clearToken w
  | getStoredToken => exact h
  | initAuthFromStorage => exact consistent_initAuth w h

theorem consistent_run (ops : List Op) (w : World) (h : Consistent w) :
    Consistent (run w ops) := by
  induction ops generalizing w with
  | nil => exact h
  | cons op rest ih => exact ih (step w op) (consistent_step w op h)

theorem atMostOne_clearToken (w : World) : AtMostOneScope (clearToken w) := by
  simp [AtMostOneScope, Storage.getItem, clearToken_session, Dict.get_erase_same, truthy]

theorem atMostOne_saveToken (t : String) (remember : Bool) (w : World) :
    AtMostOneScope (saveToken t remember w) := by
  by_cases ht : t = ""
  · subst ht
    rw [saveToken_empty]
    exact atMostOne_clearToken w
  · cases remember
    · simp [AtMostOneScope, (saveToken_session t ht w).2, truthy]
    · simp [AtMostOneScope, (saveToken_local t ht w).2, truthy]

theorem atMostOne_initAuth (w : World) (h : AtMostOneScope w) :
    AtMostOneScope (initAuthFromStorage w) := by
  unfold AtMostOneScope at *
  rw [initAuth_session, initAuth_local]
  exact h

theorem atMostOne_step (w : World) (op : Op) (h : AtMostOneScope w) :
    AtMostOneScope (step w op) := by
  cases op with
  | saveToken t r => exact atMostOne_saveToken t r w
  | clearToken => exact atMostOne_clearToken w
  | getStoredToken => exact h
  | initAuthFromStorage => exact atMostOne_initAuth w h

theorem atMostOne_run (ops : List Op) (w : World) (h : AtMostOneScope w) :
    AtMostOneScope (run w ops) := by
  induction ops generalizing w with
  | nil => exact h
  | cons op rest ih => exact ih (step w op) (atMostOne_step w op h)

theorem run_append_cons (w : World) (pre post : List Op) (op : Op) :
    run w (pre ++ op :: post) = run (step (run w pre) op) post := by
  simp [run, List.foldl_append]

/-! ## Runs without a `saveToken` call -/

theorem noToken_run (ops : List Op) (w : World) (h : NoToken w)
    (hs : ∀ op ∈ ops, Op.isSave op = false) : NoToken (run w ops) := by
  induction ops generalizing w with
  | nil => exact h
  | cons op rest ih =>
    have hrest : ∀ o ∈ rest, Op.isSave o = false :=
      fun o ho => hs o (List.mem_cons_of_mem _ ho)
    have hop : Op.isSave op = false := hs op (List.mem_cons_self _ _)
    apply ih _ _ hrest
    cases op with
    | saveToken t r => simp [Op.isSave] at hop
    | clearToken => exact ⟨clearToken_authorization w, clearToken_stored w⟩
    | getStoredToken => exact h
    | initAuthFromStorage =>
      show NoToken (initAuthFromStorage w)
      rw [initAuth_of_empty w h.2]
      exact h

theorem hasToken_run (tok : String) (htok : tok ≠ "") (ops : List Op) (w : World)
    (h : HasToken tok w) (hs : ∀ op ∈ ops, Op.isSave op = false) :
    if Op.clearToken ∈ ops then NoToken (run w ops) else HasToken tok (run w ops) := by
  induction ops generalizing w with
  | nil => simpa using h
  | cons op rest ih =>
    have hrest : ∀ o ∈ rest, Op.isSave o = false :=
      fun o ho => hs o (List.mem_cons_of_mem _ ho)
    have hop : Op.isSave op = false := hs op (List.mem_cons_self _ _)
    cases op with
    | saveToken t r => simp [Op.isSave] at hop
    | clearToken =>
      simp only [List.mem_cons, true_or, if_true]
      exact noToken_run rest _ ⟨clearToken_authorization w, clearToken_stored w⟩ hrest
    | getStoredToken =>
      have := ih w h hrest
      simpa [run, step, getStoredToken_snd] using this
    | initAuthFromStorage =>
      have h2 : HasToken tok (initAuthFromStorage w) := by
        refine ⟨?_, ?_⟩
        · rw [initAuth_authorization_of_ne w (by rw [h.2]; exact htok), h.2]
        · rw [initAuth_stored, h.2]
      have := ih _ h2 hrest
      simpa [run, step] using this

/-! ## Properties of the specification, C1 to C10 -/

/-- C1: for every prior state, every non-empty token `t` and every
`remember`, after `saveToken(t, remember)` the call `getStoredToken()`
returns `t`; with `remember` true the durable scope holds `t` under key
`"token"` and the ephemeral scope holds no value, with `remember` false the
ephemeral scope holds `t` and the durable scope holds no value; the
Authorization default header is `"Bearer " + t`. -/
theorem saveToken_stores_in_one_scope (w : World) (t : String) (remember : Bool)
    (ht : t ≠ "") :
    (getStoredToken (saveToken t remember w)).1 = t ∧
    (remember = true →
      (saveToken t remember w).localStorage.getItem "token" = some t ∧
      (saveToken t remember w).sessionStorage.getItem "token" = none) ∧
    (remember = false →
      (saveToken t remember w).sessionStorage.getItem "token" = some t ∧
      (saveToken t remember w).localStorage.getItem "token" = none) ∧
    (saveToken t remember w).authorization = some ("Bearer " ++ t) := by
  refine ⟨saveToken_stored t ht remember w, ?_, ?_, saveToken_authorization t ht remember w⟩
  · intro hr
    subst hr
    exact saveToken_local t ht w
  · intro hr
    subst hr
    exact saveToken_session t ht w

/-- Scenario of C1 on a state in which both scopes and the header are already
occupied: `saveToken("tok1", false)` then `saveToken("tok2", true)`. -/
theorem saveToken_stores_in_one_scope_witness :
    ("tok2" : String) ≠ "" ∧
    (getStoredToken (saveToken "tok2" true (saveToken "tok1" false
      ⟨[("token", "old")], [("token", "older")], [("Authorization", "Bearer old")]⟩))).1
      = "tok2" ∧
    (saveToken "tok2" true (saveToken "tok1" false
      ⟨[("token", "old")], [("token", "older")], [("Authorization", "Bearer old")]⟩))
      = ⟨[], [("token", "tok2")], [("Authorization", "Bearer tok2")]⟩ :=
  ⟨by decide,
   (saveToken_stores_in_one_scope (saveToken "tok1" false
      ⟨[("token", "old")], [("token", "older")], [("Authorization", "Bearer old")]⟩)
      "tok2" true (by decide)).1,
   by decide⟩

/-- C2 (as stated, refuted): with the durable scope holding `"abc"` at process
start and no Authorization header among the library defaults, the start-up
call sets the header before any `saveToken` call, so the stated transport
property fails for the empty sequence of calls. -/
theorem transportClaim_fails_on_restored_token :
    Dict.get [] "Authorization" = none ∧
    (run (processStart [] [("token", "abc")] []) []).authorization = some "Bearer abc" ∧
    ¬ TransportClaim [] [("token", "abc")] [] [] := by
  refine ⟨by decide, by decide, ?_⟩
  intro h
  have h2 := h.2.1 (by simp)
  revert h2
  decide

/-- C2 (amended): in every run that starts at process start (no Authorization
default header, any storage contents, then the start-up call of
`initAuthFromStorage`) and continues with any sequence of calls: after a
`saveToken` of a non-empty `t`, at every point up to the next `saveToken`
or `clearToken` call, the Authorization default header is `"Bearer " + t`;
after a `clearToken`, at every point up to the next `saveToken` call, it is
absent; at every point before the first `saveToken` call it is absent when
a `clearToken` has been called or the storage held no non-empty token at
process start, and otherwise it is `"Bearer "` followed by the token
restored from storage at process start. -/
theorem transport_with_restored_token (ss ls : Storage) (hdrs : Dict)
    (hno : Dict.get hdrs "Authorization" = none) (ops : List Op) :
    (∀ pre t r post, ops = pre ++ Op.saveToken t r :: post → t ≠ "" →
      (∀ op ∈ post, Op.isSave op = false) → Op.clearToken ∉ post →
      (run (processStart ss ls hdrs) ops).authorization = some ("Bearer " ++ t)) ∧
    (∀ pre post, ops = pre ++ Op.clearToken :: post →
      (∀ op ∈ post, Op.isSave op = false) →
      (run (processStart ss ls hdrs) ops).authorization = none) ∧
    ((∀ op ∈ ops, Op.isSave op = false) →
      (run (processStart ss ls hdrs) ops).authorization =
        if Op.clearToken ∈ ops ∨ (getStoredToken ⟨ss, ls, hdrs⟩).1 = "" then none
        else some ("Bearer " ++ (getStoredToken ⟨ss, ls, hdrs⟩).1)) := by
  refine ⟨?_, ?_, ?_⟩
  · intro pre t r post hops ht hs hc
    subst hops
    rw [run_append_cons]
    have h0 : HasToken t (step (run (processStart ss ls hdrs) pre) (Op.saveToken t r)) :=
      ⟨saveToken_authorization t ht r _, saveToken_stored t ht r _⟩
    have h1 := hasToken_run t ht post _ h0 hs
    rw [if_neg hc] at h1
    exact h1.1
  · intro pre post hops hs
    subst hops
    rw [run_append_cons]
    have h0 : NoToken (step (run (processStart ss ls hdrs) pre) Op.clearToken) :=
      ⟨clearToken_authorization _, clearToken_stored _⟩
    exact (noToken_run post _ h0 hs).1
  · intro hs
    by_cases he : (getStoredToken ⟨ss, ls, hdrs⟩).1 = ""
    · have h0 : NoToken (processStart ss ls hdrs) := by
        unfold processStart
        rw [initAuth_of_empty _ he]
        exact ⟨hno, he⟩
      simp [he, (noToken_run ops _ h0 hs).1]
    · have h0 : HasToken (getStoredToken ⟨ss, ls, hdrs⟩).1 (processStart ss ls hdrs) := by
        unfold processStart
        exact ⟨initAuth_authorization_of_ne _ he, initAuth_stored _⟩
      have h1 := hasToken_run _ he ops _ h0 hs
      by_cases hc : Op.clearToken ∈ ops
      · rw [if_pos hc] at h1
        simp [hc, h1.1]
      · rw [if_neg hc] at h1
        simp [hc, he, h1.1]

/-- Runs of C2 from a durable token `"abc"`: the header restored at process
start is still in place after `getStoredToken()` and `initAuthFromStorage()`,
and the header of a later `saveToken("n", false)` survives the same calls. -/
theorem transport_with_restored_token_witness :
    Dict.get [("Accept", "application/json")] "Authorization" = none ∧
    (run (processStart [] [("token", "abc")] [("Accept", "application/json")])
      [Op.getStoredToken, Op.initAuthFromStorage]).authorization = some "Bearer abc" ∧
    (run (processStart [] [("token", "abc")] [("Accept", "application/json")])
      [Op.clearToken, Op.saveToken "n" false, Op.initAuthFromStorage,
        Op.getStoredToken]).authorization = some "Bearer n" :=
  ⟨by decide,
   ((transport_with_restored_token [] [("token", "abc")] [("Accept", "application/json")]
      (by decide) [Op.getStoredToken, Op.initAuthFromStorage]).2.2 (by decide)).trans
      (by decide),
   (transport_with_restored_token [] [("token", "abc")] [("Accept", "application/json")]
      (by decide) [Op.clearToken, Op.saveToken "n" false, Op.initAuthFromStorage,
        Op.getStoredToken]).1 [Op.clearToken] "n" false
      [Op.initAuthFromStorage, Op.getStoredToken] rfl (by decide) (by decide) (by decide)⟩

/-- C3 (as stated, refuted): the durable scope holds `"abc"` and the ephemeral
scope holds `"xyz"`; after `initAuthFromStorage()` the Authorization header
is `"Bearer xyz"`, not `"Bearer abc"`. -/
theorem initAuth_durable_abc_fails_with_ephemeral_token :
    (⟨[("token", "xyz")], [("token", "abc")], []⟩ : World).localStorage.getItem "token"
      = some "abc" ∧
    (initAuthFromStorage ⟨[("token", "xyz")], [("token", "abc")], []⟩).authorization
      = some "Bearer xyz" ∧
    (initAuthFromStorage ⟨[("token", "xyz")], [("token", "abc")], []⟩).authorization
      ≠ some "Bearer abc" := by
  decide

/-- C3 (amended): for every state in which the durable scope holds `"abc"`
under key `"token"` and the ephemeral scope holds no value or the empty
string under that key (whatever the default headers hold), after
`initAuthFromStorage()` the Authorization default header equals
`"Bearer abc"`. -/
theorem initAuth_restores_durable_abc (w : World)
    (hd : w.localStorage.getItem "token" = some "abc")
    (he : w.sessionStorage.getItem "token" = none ∨
          w.sessionStorage.getItem "token" = some "") :
    (initAuthFromStorage w).authorization = some "Bearer abc" := by
  have hst : (getStoredToken w).1 = "abc" := by
    rcases he with he | he <;>
      simp [getStoredToken, he, hd, jsOr, jsOrStr, truthy]
  have hne : (getStoredToken w).1 ≠ "" := by
    rw [hst]; decide
  rw [initAuth_authorization_of_ne w hne, hst]
  rfl

/-- Instance of C3 with an empty string left in the ephemeral scope and a
stale header. -/
theorem initAuth_restores_durable_abc_witness :
    Storage.getItem
      (⟨[("token", "")], [("token", "abc")], [("Authorization", "Bearer old")]⟩ :
        World).localStorage "token" = some "abc" ∧
    (initAuthFromStorage
      ⟨[("token", "")], [("token", "abc")], [("Authorization", "Bearer old")]⟩).authorization
      = some "Bearer abc" :=
  ⟨by decide,
   initAuth_restores_durable_abc
     ⟨[("token", "")], [("token", "abc")], [("Authorization", "Bearer old")]⟩
     (by decide) (Or.inr (by decide))⟩

/-- C4: header/storage consistency.  `Consistent` holds after
`saveToken(t, remember)` and after `clearToken()` from every state `s`, for
every string `t` and every `remember`; from a state `c` with `Consistent c`
it holds after `initAuthFromStorage()` and after `getStoredToken()`; hence
it holds in every state reached by any sequence of calls made after a
`saveToken` or a `clearToken` call. -/
theorem consistent_invariant (s : World) (t : String) (remember : Bool) (c : World)
    (hc : Consistent c) (ops : List Op) :
    Consistent (saveToken t remember s) ∧
    Consistent (clearToken s) ∧
    Consistent (initAuthFromStorage c) ∧
    Consistent (getStoredToken c).2 ∧
    Consistent (run (saveToken t remember s) ops) ∧
    Consistent (run (clearToken s) ops) :=
  ⟨consistent_saveToken t remember s, consistent_clearToken s, consistent_initAuth c hc, hc,
   consistent_run ops _ (consistent_saveToken t remember s),
   consistent_run ops _ (consistent_clearToken s)⟩

/-- Instance of C4: `s` is an inconsistent state (token stored, header absent),
`c` a consistent one. -/
theorem consistent_invariant_witness :
    ¬ Consistent ⟨[("token", "a")], [], []⟩ ∧
    Consistent ⟨[], [("token", "b")], [("Authorization", "Bearer b")]⟩ ∧
    Consistent (saveToken "t" true ⟨[("token", "a")], [], []⟩) ∧
    Consistent (initAuthFromStorage
      ⟨[], [("token", "b")], [("Authorization", "Bearer b")]⟩) ∧
    Consistent (run (clearToken ⟨[("token", "a")], [], []⟩)
      [Op.initAuthFromStorage, Op.saveToken "u" false, Op.getStoredToken]) :=
  ⟨by decide, by decide,
   (consistent_invariant ⟨[("token", "a")], [], []⟩ "t" true
      ⟨[], [("token", "b")], [("Authorization", "Bearer b")]⟩ (by decide)
      [Op.initAuthFromStorage, Op.saveToken "u" false, Op.getStoredToken]).1,
   (consistent_invariant ⟨[("token", "a")], [], []⟩ "t" true
      ⟨[], [("token", "b")], [("Authorization", "Bearer b")]⟩ (by decide)
      [Op.initAuthFromStorage, Op.saveToken "u" false, Op.getStoredToken]).2.2.1,
   (consistent_invariant ⟨[("token", "a")], [], []⟩ "t" true
      ⟨[], [("token", "b")], [("Authorization", "Bearer b")]⟩ (by decide)
      [Op.initAuthFromStorage, Op.saveToken "u" false, Op.getStoredToken]).2.2.2.2.2⟩

/-- C5: single-scope invariant.  `AtMostOneScope` holds after
`saveToken(t, remember)` and after `clearToken()` from every state `s`, for
every string `t` and every `remember`; it is preserved by
`initAuthFromStorage()` and `getStoredToken()`; and it holds in every state
reached from a state `c` satisfying it by any sequence of the four
operations. -/
theorem single_scope_invariant (s : World) (t : String) (remember : Bool) (c : World)
    (hc : AtMostOneScope c) (ops : List Op) :
    AtMostOneScope (saveToken t remember s) ∧
    AtMostOneScope (clearToken s) ∧
    AtMostOneScope (initAuthFromStorage c) ∧
    AtMostOneScope (getStoredToken c).2 ∧
    AtMostOneScope (run c ops) :=
  ⟨atMostOne_saveToken t remember s, atMostOne_clearToken s, atMostOne_initAuth c hc, hc,
   atMostOne_run ops c hc⟩

/-- Instance of C5: `s` holds a token in both scopes, `c` in one. -/
theorem single_scope_invariant_witness :
    ¬ AtMostOneScope ⟨[("token", "a")], [("token", "b")], []⟩ ∧
    AtMostOneScope ⟨[("token", "a")], [("token", "")], []⟩ ∧
    AtMostOneScope (saveToken "t" false ⟨[("token", "a")], [("token", "b")], []⟩) ∧
    AtMostOneScope (run ⟨[("token", "a")], [("token", "")], []⟩
      [Op.initAuthFromStorage, Op.getStoredToken, Op.saveToken "u" true, Op.clearToken]) :=
  ⟨by decide, by decide,
   (single_scope_invariant ⟨[("token", "a")], [("token", "b")], []⟩ "t" false
      ⟨[("token", "a")], [("token", "")], []⟩ (by decide)
      [Op.initAuthFromStorage, Op.getStoredToken, Op.saveToken "u" true, Op.clearToken]).1,
   (single_scope_invariant ⟨[("token", "a")], [("token", "b")], []⟩ "t" false
      ⟨[("token", "a")], [("token", "")], []⟩ (by decide)
      [Op.initAuthFromStorage, Op.getStoredToken, Op.saveToken "u" true,
        Op.clearToken]).2.2.2.2⟩

/-- C6: for every state, `getStoredToken()` returns the value of the
reference definition `storedTokenSpec` (non-empty ephemeral value, else
non-empty durable value, else the empty string), and the state after the
call (both storage scopes and the default headers) is the state before it. -/
theorem getStoredToken_refines_spec (w : World) :
    (getStoredToken w).1 = storedTokenSpec w ∧ (getStoredToken w).2 = w :=
  ⟨getStoredToken_fst_eq_spec w, getStoredToken_snd w⟩

/-- C7: for every prior state and every `remember`, `saveToken("", remember)`
produces exactly the state `clearToken()` produces: neither storage scope
holds a value under key `"token"`, the Authorization default header is
absent, and a following `getStoredToken()` returns the empty string.  The
function is total, so no error is raised. -/
theorem saveToken_empty_is_clear (w : World) (remember : Bool) :
    saveToken "" remember w = clearToken w ∧
    (saveToken "" remember w).sessionStorage.getItem "token" = none ∧
    (saveToken "" remember w).localStorage.getItem "token" = none ∧
    (saveToken "" remember w).authorization = none ∧
    (getStoredToken (saveToken "" remember w)).1 = "" := by
  rw [saveToken_empty]
  refine ⟨rfl, ?_, ?_, clearToken_authorization w, clearToken_stored w⟩
  · simp [Storage.getItem, clearToken_session, Dict.get_erase_same]
  · simp [Storage.getItem, clearToken_local, Dict.get_erase_same]

/-- C8: for every prior state, after `clearToken()` the call
`getStoredToken()` returns the empty string, key `"token"` is absent from
both storage scopes and the default headers have no Authorization entry;
every default header other than Authorization and every storage key other
than `"token"` holds what it held before. -/
theorem clearToken_clears_only_token (w : World) :
    (getStoredToken (clearToken w)).1 = "" ∧
    (clearToken w).sessionStorage.getItem "token" = none ∧
    (clearToken w).localStorage.getItem "token" = none ∧
    (clearToken w).authorization = none ∧
    (∀ h : String, h ≠ "Authorization" →
      Dict.get (clearToken w).headers h = Dict.get w.headers h) ∧
    (∀ k : String, k ≠ "token" →
      (clearToken w).sessionStorage.getItem k = w.sessionStorage.getItem k ∧
      (clearToken w).localStorage.getItem k = w.localStorage.getItem k) := by
  refine ⟨clearToken_stored w, ?_, ?_, clearToken_authorization w, ?_, ?_⟩
  · simp [Storage.getItem, clearToken_session, Dict.get_erase_same]
  · simp [Storage.getItem, clearToken_local, Dict.get_erase_same]
  · intro h hh
    rw [clearToken_headers, Dict.get_erase_other _ _ _ hh]
  · intro k hk
    simp only [Storage.getItem, clearToken_session, clearToken_local]
    exact ⟨Dict.get_erase_other _ _ _ hk, Dict.get_erase_other _ _ _ hk⟩

/-- Instance of C8 on a state with other headers and other storage keys. -/
theorem clearToken_clears_only_token_witness :
    Dict.get (clearToken ⟨[("lang", "en"), ("token", "a")], [("token", "b"), ("theme", "dark")],
      [("Accept", "application/json"), ("Authorization", "Bearer a")]⟩).headers "Accept"
      = some "application/json" ∧
    clearToken ⟨[("lang", "en"), ("token", "a")], [("token", "b"), ("theme", "dark")],
      [("Accept", "application/json"), ("Authorization", "Bearer a")]⟩
      = ⟨[("lang", "en")], [("theme", "dark")], [("Accept", "application/json")]⟩ :=
  ⟨((clearToken_clears_only_token
      ⟨[("lang", "en"), ("token", "a")], [("token", "b"), ("theme", "dark")],
       [("Accept", "application/json"), ("Authorization", "Bearer a")]⟩).2.2.2.2.1
      "Accept" (by decide)).trans (by decide),
   by decide⟩

/-- C9: `clearToken` is idempotent on the whole state: for every state `w`,
clearing twice gives the state that clearing once gives; and on a state `c`
in which key `"token"` is absent from both scopes and the Authorization
header is absent, `clearToken` changes nothing. -/
theorem clearToken_idempotent (w c : World)
    (hs : c.sessionStorage.getItem "token" = none)
    (hl : c.localStorage.getItem "token" = none)
    (ha : c.authorization = none) :
    clearToken (clearToken w) = clearToken w ∧ clearToken c = c := by
  refine ⟨(clearToken_eq_self_iff _).2 ⟨?_, ?_, clearToken_authorization w⟩,
    (clearToken_eq_self_iff c).2 ⟨hs, hl, ha⟩⟩
  · simp [Storage.getItem, clearToken_session, Dict.get_erase_same]
  · simp [Storage.getItem, clearToken_local, Dict.get_erase_same]

/-- Instance of C9: `w` holds tokens and a header, `c` holds none. -/
theorem clearToken_idempotent_witness :
    Storage.getItem (⟨[("lang", "en")], [], [("Accept", "x")]⟩ : World).sessionStorage "token"
      = none ∧
    clearToken (clearToken ⟨[("token", "a")], [("token", "b")], [("Authorization", "Bearer a")]⟩)
      = clearToken ⟨[("token", "a")], [("token", "b")], [("Authorization", "Bearer a")]⟩ ∧
    clearToken ⟨[("lang", "en")], [], [("Accept", "x")]⟩
      = ⟨[("lang", "en")], [], [("Accept", "x")]⟩ :=
  ⟨by decide,
   clearToken_idempotent
     ⟨[("token", "a")], [("token", "b")], [("Authorization", "Bearer a")]⟩
     ⟨[("lang", "en")], [], [("Accept", "x")]⟩ (by decide) (by decide) (by decide)⟩

/-- C10: for every base URL string `b` and every identifier string `id`,
`audioUrl(id)` is the concatenation of `b`, `"/audio/"` and `id`, both parts
taken verbatim; with base `"http://host"` and identifier `"42"` the result
is `"http://host/audio/42"`. -/
theorem audioUrl_is_concatenation (b id : String) :
    audioUrl b id = b ++ "/audio/" ++ id ∧
    (audioUrl b id).data = b.data ++ "/audio/".data ++ id.data ∧
    audioUrl "http://host" "42" = "http://host/audio/42" := by
  refine ⟨rfl, ?_, by decide⟩
  simp [audioUrl]

end Wordlist
